import Mathlib

/-!
Verification of the chunked streaming transcription pipeline of the
rivavoice transcriber.

The development embeds, as executable Lean definitions, the parts of the
source that the checked properties are about:

* `src/v2/rivacore/text_utils.py` — `tokenize`, `find_overlap`,
  `deduplicate_transcripts`, `clean_transcript`,
  `ensure_space_before_text`;
* `src/v2/rivacore/chunked_audio.py` — the noise-floor calibration, the
  derived silence threshold, and the VAD recording state machine
  (`_record_with_vad` / `_process_chunk`) of `ChunkedAudioRecorder`;
* `src/v2/rivacore/backend.py` — the per-chunk merge pipeline of
  `RivaBackend._process_audio_chunk`.

Python strings are modelled as `List Char` (a Python `str` is a sequence
of characters); Python floats are modelled as rationals `ℚ`; wall-clock
times delivered by `time.time()` are inputs of the step function.  Each
audio frame read from the stream is modelled by an identifier `ℕ`
(the raw bytes are never inspected, only stored and concatenated)
together with the RMS value the source computes for it and the time at
which it is processed.
-/

/-! Section: Python string primitives, modelling `str` as `List Char`. -/

/-- Python `str.isspace` classification of a character (the source only
ever meets ASCII whitespace). -/
def pyIsWs (c : Char) : Bool := c.isWhitespace

/-- Python `s.lstrip()`: drop leading whitespace. -/
def pyLStrip (s : List Char) : List Char := s.dropWhile pyIsWs

/-- Python `s.rstrip()`: drop trailing whitespace. -/
def pyRStrip (s : List Char) : List Char :=
  (s.reverse.dropWhile pyIsWs).reverse

/-- Python `s.strip()`. -/
def pyStrip (s : List Char) : List Char := pyLStrip (pyRStrip s)

/-- Python `s.endswith(pat)`. -/
def pyEndsWith (s pat : List Char) : Bool :=
  decide (s.drop (s.length - pat.length) = pat ∧ pat.length ≤ s.length)

/-- Python `s.startswith(pat)`. -/
def pyStartsWith (s pat : List Char) : Bool :=
  decide (s.take pat.length = pat ∧ pat.length ≤ s.length)

/-- Python `s.lstrip(".")`: drop leading dots. -/
def pyLStripDots (s : List Char) : List Char := s.dropWhile (· = '.')

/-- Python `" ".join(parts)`. -/
def pyJoinSpace : List (List Char) → List Char
  | [] => []
  | [p] => p
  | p :: ps => p ++ ' ' :: pyJoinSpace ps

/-! Section: `text_utils.tokenize`. -/

/-- Worker for `tokenize`: splits on whitespace, dropping empty pieces,
carrying the (reversed) current word in `acc`.  This computes exactly
Python's `re.findall(r'\S+', text.strip())`. -/
def splitWsAux : List Char → List Char → List (List Char)
  | [], acc => if acc = [] then [] else [acc.reverse]
  | c :: rest, acc =>
    if pyIsWs c then
      (if acc = [] then splitWsAux rest [] else acc.reverse :: splitWsAux rest [])
    else splitWsAux rest (c :: acc)

/-- Model of `text_utils.tokenize`: split text into whitespace-separated tokens
(punctuation stays attached).  `re.findall(r'\S+', text.strip())` is the
list of maximal non-whitespace runs of the text. -/
def tokenize (text : List Char) : List (List Char) := splitWsAux text []

/-! Section: `text_utils.find_overlap`. -/

/-- The loop of `find_overlap`: for `overlap_size` from `m` down to `1`,
return the first size at which `tokens1[-overlap_size:] ==
tokens2[:overlap_size]`; return `0` when none matches. -/
def findOverlapFrom (tokens1 tokens2 : List (List Char)) : ℕ → ℕ
  | 0 => 0
  | k + 1 =>
    if tokens1.drop (tokens1.length - (k + 1)) = tokens2.take (k + 1) then k + 1
    else findOverlapFrom tokens1 tokens2 k

/-- Model of `text_utils.find_overlap`: number of tokens shared between the end of
`tokens1` and the start of `tokens2`, trying sizes from
`min(max_overlap, len(tokens1), len(tokens2))` down to `1`. -/
def find_overlap (tokens1 tokens2 : List (List Char)) (maxOverlap : ℕ := 10) : ℕ :=
  if tokens1 = [] ∨ tokens2 = [] then 0
  else findOverlapFrom tokens1 tokens2 (min maxOverlap (min tokens1.length tokens2.length))

/-! Section: `text_utils.deduplicate_transcripts`. -/

/-- Model of `text_utils.deduplicate_transcripts`: merge two transcripts, removing
duplicate tokens at the boundary.  Mirrors the source branch for branch:
empty-string guards, the ellipsis special case, then tokenize / overlap /
drop / rejoin. -/
def deduplicate_transcripts (previous current : List Char) : List Char :=
  if previous = [] then current
  else if current = [] then previous
  else if pyEndsWith (pyRStrip previous) "...".data ∧
          pyStartsWith (pyLStrip current) "...".data then
    let current1 := pyLStripDots (pyLStrip current)
    previous ++ ' ' :: pyLStrip current1
  else
    let prevTokens := tokenize previous
    let currTokens := tokenize current
    let overlap := find_overlap prevTokens currTokens
    if overlap > 0 then
      let currTokens1 := currTokens.drop overlap
      if currTokens1 = [] then previous
      else previous ++ ' ' :: pyJoinSpace currTokens1
    else previous ++ ' ' :: current

/-! Section: `text_utils.clean_transcript`. -/

/-- Worker for `re.sub(r'\s+', ' ', text)`: collapse each maximal
whitespace run to a single space.  `prevWs` records whether the previous
character was part of a whitespace run already emitted as one space. -/
def collapseWsAux : Bool → List Char → List Char
  | _, [] => []
  | prevWs, c :: rest =>
    if pyIsWs c then
      (if prevWs then collapseWsAux true rest else ' ' :: collapseWsAux true rest)
    else c :: collapseWsAux false rest

/-- The punctuation class `[.,!?;:]` of `clean_transcript`. -/
def isPunct (c : Char) : Bool := c ∈ ['.', ',', '!', '?', ';', ':']

/-- Model of `re.sub(r'\s+([.,!?;:])', r'\1', text)`: delete every whitespace
character that is followed (through further whitespace) by a punctuation
character, which removes each whitespace run standing before
punctuation. -/
def stripWsBeforePunct : List Char → List Char
  | [] => []
  | c :: rest =>
    if pyIsWs c && (match rest.dropWhile pyIsWs with
                    | p :: _ => isPunct p
                    | [] => false) then
      stripWsBeforePunct rest
    else c :: stripWsBeforePunct rest

/-- Python `[A-Za-z]` (ASCII letters). -/
def isAsciiLetter (c : Char) : Bool := c.isAlpha

/-- Model of `re.sub(r'([.,!?;:])([A-Za-z])', r'\1 \2', text)`: insert a space
between punctuation directly followed by a letter; after a match the
scan resumes past the matched pair, exactly as `re.sub` does. -/
def spaceAfterPunct : List Char → List Char
  | [] => []
  | [c] => [c]
  | c1 :: c2 :: rest =>
    if isPunct c1 ∧ isAsciiLetter c2 then c1 :: ' ' :: c2 :: spaceAfterPunct rest
    else c1 :: spaceAfterPunct (c2 :: rest)

/-- Model of `text_utils.clean_transcript`: strip, collapse whitespace runs,
tighten space before punctuation, add missing space after
punctuation. -/
def clean_transcript (text : List Char) : List Char :=
  if text = [] then []
  else
    let t1 := collapseWsAux false (pyStrip text)
    let t2 := stripWsBeforePunct t1
    spaceAfterPunct t2

/-! Section: `text_utils.ensure_space_before_text`. -/

/-- The closing-punctuation class `'.!?;:,)]}'` of
`ensure_space_before_text`. -/
def isClosingPunct (c : Char) : Bool :=
  c ∈ ['.', '!', '?', ';', ':', ',', ')', ']', '\x7d']

/-- Model of `text_utils.ensure_space_before_text`: prepend a space to `current`
when the junction would glue a letter to closing punctuation or two
alphanumerics together.  `last_char`/`first_char` are `''` in Python when
the stripped string is empty, modelled by `none`; note that Python's
`'' in anystring` is `True`, hence the `none ↦ true` case of the
membership test. -/
def ensure_space_before_text (previous current : List Char) : List Char :=
  if previous = [] ∨ current = [] then current
  else
    let lastChar : Option Char := (pyRStrip previous).getLast?
    let firstChar : Option Char := (pyLStrip current).head?
    let lastIn : Bool := match lastChar with
      | none => true
      | some c => isClosingPunct c
    let firstAlpha : Bool := match firstChar with
      | none => false
      | some c => isAsciiLetter c
    let lastAlnum : Bool := match lastChar with
      | none => false
      | some c => c.isAlphanum
    let firstAlnum : Bool := match firstChar with
      | none => false
      | some c => c.isAlphanum
    if lastIn ∧ firstAlpha then ' ' :: pyLStrip current
    else if lastAlnum ∧ firstAlnum then ' ' :: pyLStrip current
    else current

/-! Section: exception-aware variant of the merge pipeline.

To state that the Python pipeline never raises, the one operation in it
that can raise in Python — string indexing `s[-1]` / `s[0]` on an empty
string (`IndexError`) — is modelled in `Except`, exactly where the
source indexes.  All other operations of the pipeline (slicing, `strip`,
`join`, `re.sub`) are total in Python. -/

/-- Python `s[-1]`: last character, `IndexError` on the empty string. -/
def pyLastIndexE (s : List Char) : Except (List Char) Char :=
  match s.getLast? with
  | none => .error "IndexError: string index out of range".data
  | some c => .ok c

/-- Python `s[0]`: first character, `IndexError` on the empty string. -/
def pyHeadIndexE (s : List Char) : Except (List Char) Char :=
  match s with
  | [] => .error "IndexError: string index out of range".data
  | c :: _ => .ok c

/-- Variant of `ensure_space_before_text` with Python's partial string
indexing made explicit: `previous.rstrip()[-1] if previous.rstrip() else
''` guards the index behind the emptiness test, and likewise for
`current`; an `IndexError` would propagate out. -/
def ensure_space_before_textE (previous current : List Char) :
    Except (List Char) (List Char) :=
  if previous = [] ∨ current = [] then .ok current
  else
    let lastCharE : Except (List Char) (Option Char) :=
      if pyRStrip previous = [] then .ok none
      else match pyLastIndexE (pyRStrip previous) with
           | .error e => .error e
           | .ok c => .ok (some c)
    match lastCharE with
    | .error e => .error e
    | .ok lastChar =>
      let firstCharE : Except (List Char) (Option Char) :=
        if pyLStrip current = [] then .ok none
        else match pyHeadIndexE (pyLStrip current) with
             | .error e => .error e
             | .ok c => .ok (some c)
      match firstCharE with
      | .error e => .error e
      | .ok firstChar =>
        let lastIn : Bool := match lastChar with
          | none => true
          | some c => isClosingPunct c
        let firstAlpha : Bool := match firstChar with
          | none => false
          | some c => isAsciiLetter c
        let lastAlnum : Bool := match lastChar with
          | none => false
          | some c => c.isAlphanum
        let firstAlnum : Bool := match firstChar with
          | none => false
          | some c => c.isAlphanum
        if lastIn ∧ firstAlpha then .ok (' ' :: pyLStrip current)
        else if lastAlnum ∧ firstAlnum then .ok (' ' :: pyLStrip current)
        else .ok current

/-! Section: the per-chunk merge pipeline of `RivaBackend._process_audio_chunk`. -/

/-- The text part of `RivaBackend._process_audio_chunk`, for a non-empty
chunk text: deduplicate against the accumulated transcript, slice off
the new part (`merged_text[len(accumulated):]`), clean it, and apply the
spacing guard.  Returns `(accumulated transcript after the chunk, text
to emit)`. -/
def mergePipeline (accumulated chunkText : List Char) : List Char × List Char :=
  let step1 : List Char × List Char :=
    if accumulated ≠ [] then
      let merged := deduplicate_transcripts accumulated chunkText
      (merged, merged.drop accumulated.length)
    else (chunkText, chunkText)
  let merged := step1.1
  let newText := clean_transcript step1.2
  let newText :=
    if merged ≠ [] ∧ newText ≠ [] then ensure_space_before_text merged newText
    else newText
  (merged, newText)

/-- Variant of `mergePipeline` with the Python `IndexError` points
explicit: an exception raised inside the spacing guard would propagate
out of the pipeline. -/
def mergePipelineE (accumulated chunkText : List Char) :
    Except (List Char) (List Char × List Char) :=
  let step1 : List Char × List Char :=
    if accumulated ≠ [] then
      let merged := deduplicate_transcripts accumulated chunkText
      (merged, merged.drop accumulated.length)
    else (chunkText, chunkText)
  let merged := step1.1
  let newText := clean_transcript step1.2
  match (if merged ≠ [] ∧ newText ≠ [] then ensure_space_before_textE merged newText
         else .ok newText) with
  | .error e => .error e
  | .ok newText1 => .ok (merged, newText1)

/-- The session-level state touched by `RivaBackend._process_audio_chunk`:
the accumulated transcript, the chunk counter, and the list of texts
emitted to the output sink (clipboard / paste / partial-transcript
file). -/
structure BackendState where
  accumulated : List Char
  chunkCount : ℕ
  outputs : List (List Char)
deriving DecidableEq

/-- Model of `RivaBackend._process_audio_chunk`, given the result of
`self._transcriber.transcribe` for the chunk: `none` models a `None`
return.  Python's `if chunk_text:` is false for both `None` and the
empty string; in that case the chunk changes nothing (the source only
logs the error and removes the temp file).  Otherwise the chunk counter
is incremented, the merge pipeline runs, and the new text is emitted
when it is not whitespace-only (`if new_text.strip():`). -/
def process_audio_chunk (s : BackendState) (chunkText : Option (List Char)) :
    BackendState :=
  match chunkText with
  | none => s
  | some t =>
    if t = [] then s
    else
      let r := mergePipeline s.accumulated t
      { accumulated := r.1,
        chunkCount := s.chunkCount + 1,
        outputs := if pyStrip r.2 ≠ [] then s.outputs ++ [r.2] else s.outputs }

/-! Section: noise-floor calibration of `ChunkedAudioRecorder._record_with_vad`. -/

/-- Insertion of a value into an ascending list, worker for `sortAsc`. -/
def insertAsc (x : ℚ) : List ℚ → List ℚ
  | [] => [x]
  | y :: ys => if x ≤ y then x :: y :: ys else y :: insertAsc x ys

/-- Ascending insertion sort, modelling Python's `sorted` on a list of
floats (which claims are only about through the multiset of values, so
any correct ascending sort is an exact model). -/
def sortAsc : List ℚ → List ℚ
  | [] => []
  | x :: xs => insertAsc x (sortAsc xs)

/-- Median of a list of rationals, taken as the middle element — the
upper middle for even length — of the ascending sort: the convention the
recorder's comment "noise floor as median of non-zero RMS values" refers
to (`sorted_rms[len(sorted_rms) // 2]`).  Total, with junk value `0` on
the empty list. -/
def listMedian (l : List ℚ) : ℚ := (sortAsc l).getD (l.length / 2) 0

/-- Model of the calibration-completion block of `_record_with_vad`
(noise floor): drop the values `≤ 0.0001` (`r > 0.0001` is kept), take
the middle element of the ascending sort as the noise floor, and fall
back to `0.001` when every value was dropped. -/
def noiseFloorOf (rmsHistory : List ℚ) : ℚ :=
  let nonZeroRms := rmsHistory.filter (fun r => r > 1/10000)
  if nonZeroRms ≠ [] then
    let sortedRms := sortAsc nonZeroRms
    sortedRms.getD (sortedRms.length / 2) 0
  else 1/1000

/-- Model of the calibration-completion block of `_record_with_vad`
(silence threshold): a fixed `0.015` for a quiet room
(`noise_floor < 0.005`), otherwise `min(max(noise_floor * 2.5, 0.012),
0.04)`. -/
def silenceThresholdOf (noiseFloor : ℚ) : ℚ :=
  if noiseFloor < 5/1000 then 15/1000
  else min (max (noiseFloor * (5/2)) (12/1000)) (4/100)

/-- The `(noise floor, silence threshold)` pair frozen when the
calibration window completes on the recorded RMS history. -/
def calibrationResult (rmsHistory : List ℚ) : ℚ × ℚ :=
  (noiseFloorOf rmsHistory, silenceThresholdOf (noiseFloorOf rmsHistory))

/-! Section: the VAD recording state machine of `ChunkedAudioRecorder`.

The machine below models `_record_with_vad` after calibration has
completed (during calibration the loop only appends to the RMS history
and `continue`s, touching none of the buffers, so calibration is the
separate pure computation above).  A frame read from the stream is
modelled by an opaque identifier together with the RMS value the source
computes for it and the `time.time()` value observed while the frame is
processed. -/

/-- One frame delivered to the recording loop: the raw data (opaque
identifier), its computed RMS, and the wall-clock time at which the loop
processes it. -/
structure FrameIn where
  data : ℕ
  rms : ℚ
  t : ℚ
deriving DecidableEq

/-- Configuration of `ChunkedAudioRecorder.__init__`, with the source's
default values. -/
structure RecConfig where
  sampleRate : ℚ := 16000
  channels : ℚ := 1
  chunkSize : ℚ := 1024
  silenceThreshold : ℚ := 2/100
  silenceDuration : ℚ := 5/2
  overlapDuration : ℚ := 1/5
  preRollSize : ℕ := 5
deriving DecidableEq

/-- Mutable state of `ChunkedAudioRecorder` used by `_record_with_vad`
and `_process_chunk`.  `voiceCount = none` models the `_voice_count`
attribute not existing yet (the source creates it lazily and tests it
with `hasattr`).  `committed` records, in order, the full payload
(`overlap_buffer + audio_buffer`) of every chunk written to a WAV file
and handed to the `on_chunk_ready` callback. -/
structure RecState where
  audioBuffer : List ℕ
  speechBuffer : List ℕ
  preRollBuffer : List ℕ
  overlapBuffer : List ℕ
  isSpeaking : Bool
  silenceStart : Option ℚ
  voiceCount : Option ℕ
  committed : List (List ℕ)
deriving DecidableEq

/-- State right after `start_recording` on a fresh recorder: all buffers
empty, not speaking, no silence timer, `_voice_count` not yet created. -/
def initState : RecState :=
  { audioBuffer := [], speechBuffer := [], preRollBuffer := [],
    overlapBuffer := [], isSpeaking := false, silenceStart := none,
    voiceCount := none, committed := [] }

/-- Python `int()` applied to a float value: truncation toward zero. -/
def pyTrunc (q : ℚ) : ℤ := if 0 ≤ q then ⌊q⌋ else -⌊-q⌋

/-- Python `l[-k:]` for an integer `k`: the last `k` elements when
`0 < k ≤ len(l)`, all of `l` when `k ≤ 0` is `0` or `k ≥ len(l)`, and
`l[(-k):]` when `k` is negative. -/
def pyNegSlice (l : List ℕ) (k : ℤ) : List ℕ :=
  if k ≤ 0 then l.drop (-k).toNat else l.drop (l.length - k.toNat)

/-- Model of `ChunkedAudioRecorder._process_chunk`: do nothing on an
empty main buffer; discard (clearing main and speech buffers) when the
speech buffer holds less than 0.5 s of frames; otherwise write
`overlap_buffer + audio_buffer` out as the chunk, recompute the overlap
buffer as the last `int(overlap_duration * sample_rate * channels * 2 /
chunk_size)` frames of the main buffer (or all of it when not longer
than that), and clear both buffers. -/
def processChunk (cfg : RecConfig) (s : RecState) : RecState :=
  if s.audioBuffer = [] then s
  else
    let speechDuration : ℚ := ((s.speechBuffer.length : ℚ) * cfg.chunkSize) / cfg.sampleRate
    if speechDuration < 1/2 then
      { s with audioBuffer := [], speechBuffer := [] }
    else
      let fullBuffer := s.overlapBuffer ++ s.audioBuffer
      let overlapSamples : ℤ :=
        pyTrunc (cfg.overlapDuration * cfg.sampleRate * cfg.channels * 2 / cfg.chunkSize)
      let newOverlap :=
        if (s.audioBuffer.length : ℤ) > overlapSamples then pyNegSlice s.audioBuffer overlapSamples
        else s.audioBuffer
      { s with overlapBuffer := newOverlap, audioBuffer := [], speechBuffer := [],
               committed := s.committed ++ [fullBuffer] }

/-- Model of one iteration of the `_record_with_vad` loop after
calibration: append the frame to the main buffer and the pre-roll FIFO,
classify it (`is_voice = rms > silence_threshold`), append voice frames
to the speech buffer, then run the hysteresis block.  A voice frame
while not speaking counts toward the 3-frame trigger (prepending the
pre-roll minus its last 3 frames on transition); a silence frame resets
the trigger count and, while speaking, starts the silence timer or —
when `time.time() - silence_start_time >= silence_duration` — processes
the chunk and returns to the silent state.  A voice frame while already
speaking falls through both branches of the source's conditional and
changes nothing beyond the buffer appends. -/
def step (cfg : RecConfig) (s : RecState) (f : FrameIn) : RecState :=
  let s := { s with audioBuffer := s.audioBuffer ++ [f.data] }
  let pr := s.preRollBuffer ++ [f.data]
  let s := { s with preRollBuffer := if pr.length > cfg.preRollSize then pr.drop 1 else pr }
  let isVoice : Bool := decide (f.rms > cfg.silenceThreshold)
  let s := if isVoice then { s with speechBuffer := s.speechBuffer ++ [f.data] } else s
  if isVoice && !s.isSpeaking then
    match s.voiceCount with
    | some c =>
      let c1 := c + 1
      if c1 ≥ 3 then
        { s with voiceCount := some c1,
                 isSpeaking := true,
                 silenceStart := none,
                 speechBuffer :=
                   if s.preRollBuffer ≠ [] then
                     s.preRollBuffer.take (s.preRollBuffer.length - 3) ++ s.speechBuffer
                   else s.speechBuffer }
      else { s with voiceCount := some c1 }
    | none => { s with voiceCount := some 1 }
  else if !isVoice then
    let s := { s with voiceCount := some 0 }
    if s.isSpeaking then
      match s.silenceStart with
      | none => { s with silenceStart := some f.t }
      | some t0 =>
        if f.t - t0 ≥ cfg.silenceDuration then
          let s1 := processChunk cfg s
          { s1 with isSpeaking := false, silenceStart := none }
        else s
    else s
  else s

/-- Run of the recording loop over a list of incoming frames. -/
def runRec (cfg : RecConfig) (s : RecState) : List FrameIn → RecState
  | [] => s
  | f :: fs => runRec cfg (step cfg s f) fs

/-! Section: helper lemmas. -/

/-- Inserting into a list adds one element to the length. -/
theorem insertAsc_length (x : ℚ) (l : List ℚ) :
    (insertAsc x l).length = l.length + 1 := by
  induction l with
  | nil => simp [insertAsc]
  | cons y ys ih =>
    simp only [insertAsc]
    split <;> simp [ih]

/-- Sorting preserves the length. -/
theorem sortAsc_length (l : List ℚ) : (sortAsc l).length = l.length := by
  induction l with
  | nil => simp [sortAsc]
  | cons x xs ih => simp [sortAsc, insertAsc_length, ih]

/-! Section: claims C5 and C6 — calibration. -/

/-- C5: when the 50-frame calibration window completes, the noise floor
is the median (middle element of the ascending sort) of the recorded RMS
values that exceed 0.0001 — i.e. after discarding values at or below
0.0001 — and is the fallback 0.001 when every recorded value is at or
below 0.0001. -/
theorem c5_noise_floor_is_median (rmsHistory : List ℚ)
    (h50 : rmsHistory.length = 50) :
    (rmsHistory.filter (fun r => r > 1/10000) ≠ [] →
      noiseFloorOf rmsHistory = listMedian (rmsHistory.filter (fun r => r > 1/10000))) ∧
    (rmsHistory.filter (fun r => r > 1/10000) = [] →
      noiseFloorOf rmsHistory = 1/1000) := by
  constructor
  · intro hne
    simp only [noiseFloorOf, listMedian, if_pos hne, sortAsc_length]
  · intro hz
    simp only [noiseFloorOf]
    rw [hz]
    simp

/-- Witness for C5 at a concrete 50-frame history of constant RMS 0.01:
the filter keeps everything and the noise floor is 0.01. -/
theorem c5_noise_floor_is_median_witness :
    (List.replicate 50 ((1:ℚ)/100)).length = 50 ∧
    ((List.replicate 50 ((1:ℚ)/100)).filter (fun r => r > 1/10000) ≠ [] →
      noiseFloorOf (List.replicate 50 ((1:ℚ)/100)) =
        listMedian ((List.replicate 50 ((1:ℚ)/100)).filter (fun r => r > 1/10000))) :=
  ⟨by simp, (c5_noise_floor_is_median (List.replicate 50 ((1:ℚ)/100)) (by simp)).1⟩

/-- C6: for every completed calibration, the derived silence threshold is
exactly 0.015 when the noise floor is below 0.005, and otherwise
`min(max(noiseFloor * 2.5, 0.012), 0.04)`; in both cases it lies within
`[0.012, 0.04]` inclusive. -/
theorem c6_threshold_clamped (rmsHistory : List ℚ) :
    ((calibrationResult rmsHistory).1 < 5/1000 →
      (calibrationResult rmsHistory).2 = 15/1000) ∧
    (¬ (calibrationResult rmsHistory).1 < 5/1000 →
      (calibrationResult rmsHistory).2 =
        min (max ((calibrationResult rmsHistory).1 * (5/2)) (12/1000)) (4/100)) ∧
    12/1000 ≤ (calibrationResult rmsHistory).2 ∧
    (calibrationResult rmsHistory).2 ≤ 4/100 := by
  have hb : ∀ nf : ℚ, (nf < 5/1000 → silenceThresholdOf nf = 15/1000) ∧
      (¬ nf < 5/1000 →
        silenceThresholdOf nf = min (max (nf * (5/2)) (12/1000)) (4/100)) ∧
      12/1000 ≤ silenceThresholdOf nf ∧ silenceThresholdOf nf ≤ 4/100 := by
    intro nf
    unfold silenceThresholdOf
    by_cases h : nf < 5/1000
    · rw [if_pos h]
      exact ⟨fun _ => rfl, fun hc => absurd h hc, by norm_num, by norm_num⟩
    · rw [if_neg h]
      exact ⟨fun hc => absurd hc h, fun _ => rfl,
        le_min (le_max_right _ _) (by norm_num), min_le_right _ _⟩
  exact hb (noiseFloorOf rmsHistory)

/-- Witness for C6 at a quiet-room history (constant RMS 0.003): the
noise floor is 0.003 < 0.005 and the threshold is the fixed 0.015. -/
theorem c6_threshold_clamped_witness :
    ((calibrationResult (List.replicate 50 ((3:ℚ)/1000))).1 < 5/1000) ∧
    (calibrationResult (List.replicate 50 ((3:ℚ)/1000))).2 = 15/1000 := by
  have h1 : (calibrationResult (List.replicate 50 ((3:ℚ)/1000))).1 < 5/1000 := by
    norm_num [calibrationResult, noiseFloorOf, List.replicate, sortAsc, insertAsc,
      List.cons_ne_nil]
  exact ⟨h1, (c6_threshold_clamped _).1 h1⟩

/-! Section: claim C9 — failed chunk transcription. -/

/-- C9: when the transcription call for a chunk returns no text (Python
`None` or the empty string, both falsy for `if chunk_text:`), the
accumulated transcript, the chunk count and the emitted outputs are all
left unchanged, and processing a later chunk proceeds exactly as if the
failed chunk had never arrived. -/
theorem c9_failed_chunk_is_noop (s : BackendState) (r : Option (List Char))
    (h : r = none ∨ r = some []) :
    process_audio_chunk s r = s ∧
    (∀ r2, process_audio_chunk (process_audio_chunk s r) r2 =
      process_audio_chunk s r2) := by
  have h1 : process_audio_chunk s r = s := by
    rcases h with h | h <;> subst h <;> simp [process_audio_chunk]
  exact ⟨h1, fun r2 => by rw [h1]⟩

/-- Witness for C9: a failed transcription (`None`) on a mid-session
state changes nothing. -/
theorem c9_failed_chunk_is_noop_witness :
    ((none : Option (List Char)) = none ∨ (none : Option (List Char)) = some []) ∧
    process_audio_chunk ⟨"Hello world".data, 1, ["Hello world".data]⟩ none =
      ⟨"Hello world".data, 1, ["Hello world".data]⟩ :=
  ⟨Or.inl rfl,
   (c9_failed_chunk_is_noop ⟨"Hello world".data, 1, ["Hello world".data]⟩ none
     (Or.inl rfl)).1⟩

/-! Section: claim C10 — discarded chunks leave the overlap buffer. -/

/-- C10: a chunk discarded for insufficient speech clears the main and
speech buffers but leaves the overlap buffer (and everything else,
including the list of committed chunks) unchanged; and whenever a chunk
is committed, its payload is `overlapBuffer ++ audioBuffer`, so it
begins with the retained tail of the previously committed chunk rather
than with audio of a discarded one. -/
theorem c10_discard_keeps_overlap (cfg : RecConfig) (s : RecState) :
    (s.audioBuffer ≠ [] →
      ((s.speechBuffer.length : ℚ) * cfg.chunkSize) / cfg.sampleRate < 1/2 →
      processChunk cfg s = { s with audioBuffer := [], speechBuffer := [] }) ∧
    ((processChunk cfg s).committed ≠ s.committed →
      (processChunk cfg s).committed =
        s.committed ++ [s.overlapBuffer ++ s.audioBuffer]) := by
  constructor
  · intro hne hshort
    unfold processChunk
    rw [if_neg hne, if_pos hshort]
  · intro hch
    unfold processChunk at hch ⊢
    by_cases hne : s.audioBuffer = []
    · rw [if_pos hne] at hch
      exact absurd rfl hch
    · rw [if_neg hne] at hch ⊢
      by_cases hshort : ((s.speechBuffer.length : ℚ) * cfg.chunkSize) / cfg.sampleRate < 1/2
      · rw [if_pos hshort] at hch
        exact absurd rfl hch
      · rw [if_neg hshort]

/-- Witness for C10: discarding a short chunk (one audio frame, empty
speech buffer) keeps the overlap buffer `[9]` while clearing the main
buffer. -/
theorem c10_discard_keeps_overlap_witness :
    (([1] : List ℕ) ≠ [] ∧
      ((([] : List ℕ).length : ℚ) * ({} : RecConfig).chunkSize) / ({} : RecConfig).sampleRate < 1/2) ∧
    processChunk {} ⟨[1], [], [2], [9], true, some 10, some 3, [[0, 9]]⟩ =
      ⟨[], [], [2], [9], true, some 10, some 3, [[0, 9]]⟩ := by
  have hh : (([1] : List ℕ) ≠ []) ∧
      ((([] : List ℕ).length : ℚ) * ({} : RecConfig).chunkSize) / ({} : RecConfig).sampleRate < 1/2 :=
    ⟨by simp, by norm_num [RecConfig.chunkSize, RecConfig.sampleRate]⟩
  exact ⟨hh, (c10_discard_keeps_overlap {} ⟨[1], [], [2], [9], true, some 10, some 3, [[0, 9]]⟩).1 hh.1 hh.2⟩

/-! Section: claim C7 — hysteresis of the Silent-to-Speaking transition. -/

/-- Processing a chunk never touches the hysteresis counter. -/
theorem processChunk_voiceCount (cfg : RecConfig) (s : RecState) :
    (processChunk cfg s).voiceCount = s.voiceCount := by
  unfold processChunk
  split
  · rfl
  · dsimp only
    split
    · rfl
    · rfl

/-- A frame classified as silence always resets `_voice_count` to 0,
whatever else the step does. -/
theorem step_silence_voiceCount (cfg : RecConfig) (s : RecState) (f : FrameIn)
    (hf : ¬ f.rms > cfg.silenceThreshold) :
    (step cfg s f).voiceCount = some 0 := by
  have hd : decide (f.rms > cfg.silenceThreshold) = false := decide_eq_false hf
  unfold step
  simp only [hd, Bool.false_and, Bool.not_false, Bool.false_eq_true, if_false, if_true]
  split
  · split
    · rfl
    · split
      · simp [processChunk_voiceCount]
      · rfl
  · rfl

/-- A frame classified as speech arriving in the silent state with the
hysteresis counter at 0 raises the counter to 1 and does not start
speaking. -/
theorem step_voice_after_silence (cfg : RecConfig) (s : RecState) (g : FrameIn)
    (hg : g.rms > cfg.silenceThreshold) (hvc : s.voiceCount = some 0)
    (hsp : s.isSpeaking = false) :
    (step cfg s g).isSpeaking = false ∧ (step cfg s g).voiceCount = some 1 := by
  have hd : decide (g.rms > cfg.silenceThreshold) = true := decide_eq_true hg
  unfold step
  simp [hd, hvc, hsp]

/-- A frame classified as silence never starts speaking. -/
theorem step_silence_not_speaking (cfg : RecConfig) (s : RecState) (f : FrameIn)
    (hf : ¬ f.rms > cfg.silenceThreshold) (hsp : s.isSpeaking = false) :
    (step cfg s f).isSpeaking = false := by
  have hd : decide (f.rms > cfg.silenceThreshold) = false := decide_eq_false hf
  unfold step
  simp [hd, hsp]

/-- C7: a single isolated speech-classified frame surrounded by
silence-classified frames never triggers the Silent-to-Speaking
transition: in any recorder state, if the machine is not speaking after
the preceding silence frame, it is still not speaking after the isolated
speech frame, nor after the following silence frame — because the
transition needs the hysteresis counter, reset to 0 by the preceding
silence frame, to reach 3. -/
theorem c7_isolated_voice_frame_no_transition (cfg : RecConfig) (s : RecState)
    (f g h : FrameIn)
    (hf : ¬ f.rms > cfg.silenceThreshold) (hg : g.rms > cfg.silenceThreshold)
    (hh : ¬ h.rms > cfg.silenceThreshold)
    (hsilent : (step cfg s f).isSpeaking = false) :
    (step cfg (step cfg s f) g).isSpeaking = false ∧
    (step cfg (step cfg (step cfg s f) g) h).isSpeaking = false := by
  have h0 := step_silence_voiceCount cfg s f hf
  have h1 := step_voice_after_silence cfg (step cfg s f) g hg h0 hsilent
  exact ⟨h1.1, step_silence_not_speaking cfg _ h hh h1.1⟩

/-- Witness for C7 on the default configuration from the initial state:
silence (RMS 0), one speech frame (RMS 1), silence (RMS 0). -/
theorem c7_isolated_voice_frame_no_transition_witness :
    (¬ (⟨1, 0, 0⟩ : FrameIn).rms > ({} : RecConfig).silenceThreshold) ∧
    ((⟨2, 1, 1⟩ : FrameIn).rms > ({} : RecConfig).silenceThreshold) ∧
    (¬ (⟨3, 0, 2⟩ : FrameIn).rms > ({} : RecConfig).silenceThreshold) ∧
    (step {} initState ⟨1, 0, 0⟩).isSpeaking = false ∧
    (step {} (step {} initState ⟨1, 0, 0⟩) ⟨2, 1, 1⟩).isSpeaking = false ∧
    (step {} (step {} (step {} initState ⟨1, 0, 0⟩) ⟨2, 1, 1⟩) ⟨3, 0, 2⟩).isSpeaking = false := by
  have hf : ¬ (⟨1, 0, 0⟩ : FrameIn).rms > ({} : RecConfig).silenceThreshold := by
    norm_num [RecConfig.silenceThreshold]
  have hg : (⟨2, 1, 1⟩ : FrameIn).rms > ({} : RecConfig).silenceThreshold := by
    norm_num [RecConfig.silenceThreshold]
  have hh : ¬ (⟨3, 0, 2⟩ : FrameIn).rms > ({} : RecConfig).silenceThreshold := by
    norm_num [RecConfig.silenceThreshold]
  have hs : (step {} initState ⟨1, 0, 0⟩).isSpeaking = false := by
    norm_num [step, initState]
  have hmain := c7_isolated_voice_frame_no_transition {} initState
    ⟨1, 0, 0⟩ ⟨2, 1, 1⟩ ⟨3, 0, 2⟩ hf hg hh hs
  exact ⟨hf, hg, hh, hs, hmain.1, hmain.2⟩

/-! Section: concrete configurations and traces for the recorder. -/

/-- Configuration after a quiet-room calibration: the fixed silence
threshold 0.015, all other parameters at their source defaults
(sample rate 16000, mono, frame size 1024, silence duration 2.5 s,
overlap duration 0.2 s, pre-roll 5 frames). -/
def cfgQuiet : RecConfig := { silenceThreshold := 3/200 }

/-- Trace for C1: eight speech frames (RMS 0.5) establish the Speaking
state, a silence frame (RMS 0.001) at t = 10 starts the silence timer,
speech resumes at t = 11 — only 1 s into the 2.5 s window — and a single
silence frame follows at t = 12.6. -/
def c1Trace : List FrameIn :=
  [⟨1, 1/2, 1⟩, ⟨2, 1/2, 2⟩, ⟨3, 1/2, 3⟩, ⟨4, 1/2, 4⟩, ⟨5, 1/2, 5⟩,
   ⟨6, 1/2, 6⟩, ⟨7, 1/2, 7⟩, ⟨8, 1/2, 8⟩,
   ⟨9, 1/1000, 10⟩, ⟨10, 1/2, 11⟩, ⟨11, 1/1000, 63/5⟩]

/-- Trace for C2: eight speech frames, then 2.6 s of silence spanning two
silence frames, which commits one chunk. -/
def c2Trace : List FrameIn :=
  [⟨1, 1/2, 1⟩, ⟨2, 1/2, 2⟩, ⟨3, 1/2, 3⟩, ⟨4, 1/2, 4⟩, ⟨5, 1/2, 5⟩,
   ⟨6, 1/2, 6⟩, ⟨7, 1/2, 7⟩, ⟨8, 1/2, 8⟩,
   ⟨9, 1/1000, 10⟩, ⟨10, 1/1000, 63/5⟩]

/-- Trace for C3: two silence frames that land in the pre-roll, six
speech frames (0.384 s of speech), then 2.6 s of silence spanning two
silence frames. -/
def c3Trace : List FrameIn :=
  [⟨1, 1/1000, 1⟩, ⟨2, 1/1000, 2⟩,
   ⟨3, 1/2, 3⟩, ⟨4, 1/2, 4⟩, ⟨5, 1/2, 5⟩, ⟨6, 1/2, 6⟩, ⟨7, 1/2, 7⟩, ⟨8, 1/2, 8⟩,
   ⟨9, 1/1000, 10⟩, ⟨10, 1/1000, 63/5⟩]

/-! Section: claim C1 — the silence timer across resumed speech. -/

/-- C1 (failing run): on `c1Trace` the speech frame at t = 11 arrives
1 s after the silence timer started at t = 10, well inside the 2.5 s
window, yet the timer is not cancelled — after the first ten frames the
machine is still speaking with `silenceStart = some 10` — and the single
silence frame at t = 12.6 immediately commits a chunk because
12.6 − 10 ≥ 2.5, even though the silence was interrupted.  The
speech-resumption case (`is_voice` while `_is_speaking`) falls through
both branches of the source's hysteresis conditional, so
`_silence_start_time` survives. -/
theorem c1_resumed_speech_does_not_cancel_timer :
    (runRec cfgQuiet initState (c1Trace.take 10)).isSpeaking = true ∧
    (runRec cfgQuiet initState (c1Trace.take 10)).silenceStart = some 10 ∧
    (runRec cfgQuiet initState c1Trace).committed =
      [[1, 2, 3, 4, 5, 6, 7, 8, 9, 10, 11]] := by
  refine ⟨?_, ?_, ?_⟩ <;>
    norm_num [runRec, step, processChunk, cfgQuiet, initState, c1Trace, pyTrunc,
      pyNegSlice, List.cons_ne_nil]

/-! Section: claim C2 — the overlap buffer after a commit. -/

/-- C2 (failing run): on `c2Trace` the committed chunk's main buffer is
the ten frames `[1, …, 10]`, and the recomputed overlap buffer is its
last six frames — `int(overlap_duration * sample_rate * channels * 2 /
chunk_size) = int(6.25) = 6`, about 0.384 s — whereas the claimed frame
count `floor(overlapDuration * sampleRate / frameSize)` is 3 (0.192 s):
the source's byte-oriented stride doubles the configured 0.2 s of
overlap for 16-bit mono audio. -/
theorem c2_overlap_has_sample_width_factor :
    (runRec cfgQuiet initState c2Trace).committed = [[1, 2, 3, 4, 5, 6, 7, 8, 9, 10]] ∧
    (runRec cfgQuiet initState c2Trace).overlapBuffer = [5, 6, 7, 8, 9, 10] ∧
    pyTrunc (cfgQuiet.overlapDuration * cfgQuiet.sampleRate / cfgQuiet.chunkSize) = 3 := by
  refine ⟨?_, ?_, ?_⟩ <;>
    norm_num [runRec, step, processChunk, cfgQuiet, initState, c2Trace, pyTrunc,
      pyNegSlice, List.cons_ne_nil] <;> decide

/-! Section: claim C3 — the minimum-speech gate. -/

/-- C3 (counterexample to the claim as stated): on `c3Trace` exactly one
chunk is committed and handed to the callback, but the frames of the
trace classified as speech (RMS above the threshold) amount to
6 · 1024 / 16000 = 0.384 s < 0.5 s.  The 0.5 s gate is checked against
`_speech_buffer`, which the Silent-to-Speaking transition pads with up
to two pre-roll frames (`pre_roll_buffer[:-3]`) that were classified as
silence — here frames 1 and 2 — so a chunk with less than 0.5 s of
speech-classified audio can pass it. -/
theorem c3_committed_chunk_below_speech_minimum :
    (runRec cfgQuiet initState c3Trace).committed = [[1, 2, 3, 4, 5, 6, 7, 8, 9, 10]] ∧
    (((c3Trace.filter (fun f => decide (f.rms > cfgQuiet.silenceThreshold))).length : ℚ) *
        cfgQuiet.chunkSize / cfgQuiet.sampleRate < 1/2) := by
  constructor
  · norm_num [runRec, step, processChunk, cfgQuiet, initState, c3Trace, pyTrunc,
      pyNegSlice, List.cons_ne_nil]
  · norm_num [c3Trace, cfgQuiet, List.filter]

/-- C3 (amended): every chunk handed to the `on_chunk_ready` callback
satisfies `len(speech_buffer) * chunk_size / sample_rate ≥ 0.5`, where
the speech buffer holds the speech-classified frames plus up to
`pre_roll_size − 3` pre-roll frames captured at the transition; a chunk
below the gate is silently discarded — main and speech buffers cleared,
nothing committed, no callback. -/
theorem c3_speech_gate (cfg : RecConfig) (s : RecState) :
    ((processChunk cfg s).committed ≠ s.committed →
      1/2 ≤ ((s.speechBuffer.length : ℚ) * cfg.chunkSize) / cfg.sampleRate) ∧
    (s.audioBuffer ≠ [] →
      ((s.speechBuffer.length : ℚ) * cfg.chunkSize) / cfg.sampleRate < 1/2 →
      processChunk cfg s = { s with audioBuffer := [], speechBuffer := [] }) := by
  constructor
  · intro hch
    by_contra hlt
    rw [not_le] at hlt
    unfold processChunk at hch
    by_cases hne : s.audioBuffer = []
    · rw [if_pos hne] at hch
      exact absurd rfl hch
    · rw [if_neg hne] at hch
      dsimp only at hch
      rw [if_pos hlt] at hch
      exact absurd rfl hch
  · intro hne hshort
    unfold processChunk
    rw [if_neg hne]
    dsimp only
    rw [if_pos hshort]

/-- Witness for C3 (amended) at a concrete committing state: ten audio
frames with an eight-frame speech buffer (0.512 s) commit, and the gate
bound holds. -/
theorem c3_speech_gate_witness :
    ((processChunk cfgQuiet ⟨[1,2,3,4,5,6,7,8,9,10], [1,2,3,4,5,6,7,8], [], [], true, some 10, some 0, []⟩).committed ≠
      (⟨[1,2,3,4,5,6,7,8,9,10], [1,2,3,4,5,6,7,8], [], [], true, some 10, some 0, []⟩ : RecState).committed) ∧
    1/2 ≤ ((((⟨[1,2,3,4,5,6,7,8,9,10], [1,2,3,4,5,6,7,8], [], [], true, some 10, some 0, []⟩ : RecState)).speechBuffer.length : ℚ) *
        cfgQuiet.chunkSize) / cfgQuiet.sampleRate := by
  have hch : (processChunk cfgQuiet ⟨[1,2,3,4,5,6,7,8,9,10], [1,2,3,4,5,6,7,8], [], [], true, some 10, some 0, []⟩).committed ≠
      (⟨[1,2,3,4,5,6,7,8,9,10], [1,2,3,4,5,6,7,8], [], [], true, some 10, some 0, []⟩ : RecState).committed := by
    norm_num [processChunk, cfgQuiet, pyTrunc, pyNegSlice, List.cons_ne_nil]
  exact ⟨hch,
    (c3_speech_gate cfgQuiet ⟨[1,2,3,4,5,6,7,8,9,10], [1,2,3,4,5,6,7,8], [], [], true, some 10, some 0, []⟩).1 hch⟩

/-! Section: claim C8 — totality of the merge pipeline. -/

/-- The spacing guard never raises: the only Python operations in the
pipeline that can raise — the string indexings `previous.rstrip()[-1]`
and `current.lstrip()[0]` — are guarded by emptiness tests, so the
exception-aware guard always returns `ok`, and with the same value as
the pure model. -/
theorem ensure_space_before_textE_ok (previous current : List Char) :
    ensure_space_before_textE previous current =
      Except.ok (ensure_space_before_text previous current) := by
  unfold ensure_space_before_textE ensure_space_before_text
  by_cases h : previous = [] ∨ current = []
  · rw [if_pos h, if_pos h]
  · rw [if_neg h, if_neg h]
    by_cases hrp : pyRStrip previous = [] <;> by_cases hlc : pyLStrip current = []
    · simp [hrp, hlc]
    · obtain ⟨c, cs, hcons⟩ := List.exists_cons_of_ne_nil hlc
      simp only [hrp, hcons, pyHeadIndexE, if_pos, if_true, reduceIte]
      simp
      split_ifs <;> rfl
    · obtain ⟨c, hc⟩ : ∃ c, (pyRStrip previous).getLast? = some c := by
        cases hg : (pyRStrip previous).getLast? with
        | none => exact absurd (List.getLast?_eq_none_iff.mp hg) hrp
        | some c => exact ⟨c, rfl⟩
      simp [hrp, hlc, pyLastIndexE, hc]
    · obtain ⟨c, cs, hcons⟩ := List.exists_cons_of_ne_nil hlc
      obtain ⟨d, hd⟩ : ∃ d, (pyRStrip previous).getLast? = some d := by
        cases hg : (pyRStrip previous).getLast? with
        | none => exact absurd (List.getLast?_eq_none_iff.mp hg) hrp
        | some d => exact ⟨d, rfl⟩
      simp [hrp, hcons, pyLastIndexE, pyHeadIndexE, hd]
      split_ifs <;> rfl

/-- C8: the merge pipeline — deduplication, slicing off the new text,
cleanup and the spacing guard — is total on all pairs of strings,
including empty and whitespace-only ones: the run with explicit
`IndexError` propagation always returns `ok`, with the value of the pure
model. -/
theorem c8_merge_pipeline_total (accumulated chunkText : List Char) :
    mergePipelineE accumulated chunkText =
      Except.ok (mergePipeline accumulated chunkText) := by
  unfold mergePipelineE mergePipeline
  dsimp only
  have hgen : ∀ m n : List Char,
      (if m ≠ [] ∧ n ≠ [] then ensure_space_before_textE m n else .ok n) =
        Except.ok (if m ≠ [] ∧ n ≠ [] then ensure_space_before_text m n else n) := by
    intro m n
    split_ifs
    · exact ensure_space_before_textE_ok m n
    · rfl
  rw [hgen]

/-! Section: claim C4 — overlap-based transcript merging. -/

/-- The loop of `find_overlap` never returns more than its starting
size. -/
theorem findOverlapFrom_le (tokens1 tokens2 : List (List Char)) :
    ∀ m, findOverlapFrom tokens1 tokens2 m ≤ m := by
  intro m
  induction m with
  | zero => simp [findOverlapFrom]
  | succ k ih =>
    simp only [findOverlapFrom]
    split
    · exact le_refl _
    · exact le_trans ih (by omega)

/-- When the loop of `find_overlap` returns a nonzero size, the last
that many tokens of `tokens1` equal the first that many of `tokens2`. -/
theorem findOverlapFrom_matches (tokens1 tokens2 : List (List Char)) :
    ∀ m, findOverlapFrom tokens1 tokens2 m ≠ 0 →
      tokens1.drop (tokens1.length - findOverlapFrom tokens1 tokens2 m) =
        tokens2.take (findOverlapFrom tokens1 tokens2 m) := by
  intro m
  induction m with
  | zero => intro hm; exact absurd rfl hm
  | succ k ih =>
    intro hm
    by_cases hc : tokens1.drop (tokens1.length - (k + 1)) = tokens2.take (k + 1)
    · simp only [findOverlapFrom, if_pos hc]
      exact hc
    · simp only [findOverlapFrom, if_neg hc] at hm ⊢
      exact ih hm

/-- The loop of `find_overlap` returns the largest matching size: no
size above its result and within the search bound matches. -/
theorem findOverlapFrom_maximal (tokens1 tokens2 : List (List Char)) :
    ∀ m j, findOverlapFrom tokens1 tokens2 m < j → j ≤ m →
      tokens1.drop (tokens1.length - j) ≠ tokens2.take j := by
  intro m
  induction m with
  | zero => intro j h1 h2; omega
  | succ k ih =>
    intro j h1 h2
    by_cases hc : tokens1.drop (tokens1.length - (k + 1)) = tokens2.take (k + 1)
    · rw [show findOverlapFrom tokens1 tokens2 (k + 1) = k + 1 by
        simp only [findOverlapFrom, if_pos hc]] at h1
      omega
    · rw [show findOverlapFrom tokens1 tokens2 (k + 1) =
          findOverlapFrom tokens1 tokens2 k by
        simp only [findOverlapFrom, if_neg hc]] at h1
      rcases Nat.eq_or_lt_of_le h2 with rfl | hj
      · exact hc
      · exact ih j h1 (by omega)

/-- C4: for non-empty inputs outside the ellipsis special case, the
merge drops the first `k` tokens of `current`, where `k` is the largest
size in `min(10, len(prevTokens), len(currTokens))` down to 1 at which
the last `k` tokens of `previous` equal the first `k` tokens of
`current`; the merged text is `previous + " " + the remaining tokens
joined by single spaces` (or `previous` alone when none remain), and
plain concatenation with one space when no overlap exists.  On the
spec's own example the merged text is "Hello world how are" and the new
text is "how are". -/
theorem c4_merge_longest_overlap (previous current : List Char)
    (hp : previous ≠ []) (hc : current ≠ [])
    (he : ¬ (pyEndsWith (pyRStrip previous) "...".data = true ∧
             pyStartsWith (pyLStrip current) "...".data = true)) :
    (find_overlap (tokenize previous) (tokenize current) ≠ 0 →
      1 ≤ find_overlap (tokenize previous) (tokenize current) ∧
      find_overlap (tokenize previous) (tokenize current) ≤
        min 10 (min (tokenize previous).length (tokenize current).length) ∧
      (tokenize previous).drop ((tokenize previous).length -
          find_overlap (tokenize previous) (tokenize current)) =
        (tokenize current).take (find_overlap (tokenize previous) (tokenize current)) ∧
      (∀ j, find_overlap (tokenize previous) (tokenize current) < j →
          j ≤ min 10 (min (tokenize previous).length (tokenize current).length) →
          (tokenize previous).drop ((tokenize previous).length - j) ≠
            (tokenize current).take j) ∧
      deduplicate_transcripts previous current =
        (if (tokenize current).drop (find_overlap (tokenize previous) (tokenize current)) = []
         then previous
         else previous ++ ' ' :: pyJoinSpace
           ((tokenize current).drop (find_overlap (tokenize previous) (tokenize current))))) ∧
    (find_overlap (tokenize previous) (tokenize current) = 0 →
      (∀ j, 1 ≤ j →
          j ≤ min 10 (min (tokenize previous).length (tokenize current).length) →
          (tokenize previous).drop ((tokenize previous).length - j) ≠
            (tokenize current).take j) ∧
      deduplicate_transcripts previous current = previous ++ ' ' :: current) ∧
    deduplicate_transcripts "Hello world".data "world how are".data =
      "Hello world how are".data ∧
    clean_transcript ((deduplicate_transcripts "Hello world".data "world how are".data).drop
        "Hello world".data.length) = "how are".data := by
  have hdedup : deduplicate_transcripts previous current =
      (if find_overlap (tokenize previous) (tokenize current) > 0 then
        (if (tokenize current).drop (find_overlap (tokenize previous) (tokenize current)) = []
         then previous
         else previous ++ ' ' :: pyJoinSpace
           ((tokenize current).drop (find_overlap (tokenize previous) (tokenize current))))
       else previous ++ ' ' :: current) := by
    unfold deduplicate_transcripts
    rw [if_neg hp, if_neg hc, if_neg he]
  refine ⟨?_, ?_, by decide, by decide⟩
  · intro hk
    have hguard : ¬ (tokenize previous = [] ∨ tokenize current = []) := by
      intro hg
      apply hk
      unfold find_overlap
      rw [if_pos hg]
    have hfo : find_overlap (tokenize previous) (tokenize current) =
        findOverlapFrom (tokenize previous) (tokenize current)
          (min 10 (min (tokenize previous).length (tokenize current).length)) := by
      unfold find_overlap
      rw [if_neg hguard]
    refine ⟨Nat.one_le_iff_ne_zero.mpr hk, ?_, ?_, ?_, ?_⟩
    · rw [hfo]
      exact findOverlapFrom_le _ _ _
    · rw [hfo] at hk ⊢
      exact findOverlapFrom_matches _ _ _ hk
    · intro j h1 h2
      rw [hfo] at h1
      exact findOverlapFrom_maximal _ _ _ j h1 h2
    · rw [hdedup, if_pos (Nat.pos_of_ne_zero hk)]
  · intro hk
    constructor
    · intro j h1 h2
      by_cases hguard : tokenize previous = [] ∨ tokenize current = []
      · exfalso
        rcases hguard with hg | hg <;> rw [hg] at h2 <;> simp at h2 <;> omega
      · have hfo : find_overlap (tokenize previous) (tokenize current) =
            findOverlapFrom (tokenize previous) (tokenize current)
              (min 10 (min (tokenize previous).length (tokenize current).length)) := by
          unfold find_overlap
          rw [if_neg hguard]
        rw [hfo] at hk
        exact findOverlapFrom_maximal _ _ _ j (by omega) h2
    · have hz : ¬ find_overlap (tokenize previous) (tokenize current) > 0 := by omega
      rw [hdedup, if_neg hz]

/-- Witness for C4 on the spec's own example pair. -/
theorem c4_merge_longest_overlap_witness :
    ("Hello world".data ≠ [] ∧ "world how are".data ≠ [] ∧
      ¬ (pyEndsWith (pyRStrip "Hello world".data) "...".data = true ∧
         pyStartsWith (pyLStrip "world how are".data) "...".data = true)) ∧
    deduplicate_transcripts "Hello world".data "world how are".data =
      "Hello world how are".data :=
  ⟨⟨by decide, by decide, by decide⟩,
   (c4_merge_longest_overlap "Hello world".data "world how are".data
     (by decide) (by decide) (by decide)).2.2.1⟩
